import Mathlib

/-!
Verification development for the bioregistry curation backend
(`src/bioregistry_curator/app.py`).

The pipeline is: validate a PubMed identifier, fetch bibliographic
metadata, scan the abstract for a homepage URL, ask an external browsing
agent for database fields, parse its reply, and assemble a fixed-schema
registry record.  The external services (the bibliographic lookup and the
browsing agent) are modelled as explicit inputs: a `ServiceBehavior` for
the metadata service and the agent's final free-text answer (or a raised
exception) for the scraper.  All string work is done on `List Char` with
structural recursion so every definition evaluates by `decide`/`rfl`.

Conventions:
* Python truthiness (`x or y`, `if x:`) is modelled explicitly.
* Machine-level Python dynamics (attribute errors on non-dict values)
  are modelled with `Except String`.
* The regexes of the source are compiled by hand into character-list
  scanners; each definition notes the regex it implements.
* `pfx` models the source's `prefix` key (that word is unusable as a
  Lean identifier), and `example_` models the `example` key.
-/

namespace Bioreg

/-- Whitespace as Python's `str.strip` / regex `\s` sees it (ASCII range). -/
def isPySpace (c : Char) : Bool :=
  c = ' ' || c = '\t' || c = '\n' || c = '\r' || c = '\x0b' || c = '\x0c'

/-- Python `str.strip()` on a character list. -/
def pyStripL (cs : List Char) : List Char :=
  ((cs.dropWhile isPySpace).reverse.dropWhile isPySpace).reverse

/-- Python `str.strip()`. -/
def pyStrip (s : String) : String := String.mk (pyStripL s.data)

/-- Python `a or b` on strings: the empty string is falsy. -/
def pyOrStr (a b : String) : String := if a = "" then b else a

/-- Python `str.lower()` (ASCII range), on the character list so that it
evaluates by kernel reduction. -/
def pyLower (s : String) : String := String.mk (s.data.map Char.toLower)

/-- Does `p` occur at the head of `l`? (used for literal regex parts). -/
def beginsWithL : List Char → List Char → Bool
  | [], _ => true
  | _ :: _, [] => false
  | p :: ps, c :: cs => p == c && beginsWithL ps cs

/-- Splits a character list on maximal runs of separator characters,
dropping empty pieces — Python's `str.split()` when `sep` is whitespace. -/
def splitRunsAux (sep : Char → Bool) : List Char → List Char → List (List Char)
  | [], acc => if acc.isEmpty then [] else [acc.reverse]
  | c :: cs, acc =>
    if sep c then
      if acc.isEmpty then splitRunsAux sep cs []
      else acc.reverse :: splitRunsAux sep cs []
    else splitRunsAux sep cs (c :: acc)

/-- Splits on a separator class, dropping empties. -/
def splitRuns (sep : Char → Bool) (cs : List Char) : List (List Char) :=
  splitRunsAux sep cs []

/-- Python `str.split(',')`: split at every comma, keeping empty pieces. -/
def splitOnCommaAux : List Char → List Char → List String
  | [], acc => [String.mk acc.reverse]
  | c :: cs, acc =>
    if c = ',' then String.mk acc.reverse :: splitOnCommaAux cs []
    else splitOnCommaAux cs (c :: acc)

/-- Python `val.split(',')`. -/
def splitOnComma (s : String) : List String := splitOnCommaAux s.data []

/-! ## Text Scanner

The source finds URLs with `re.findall(r"https?://[^\s\)\]]+", text)` and
then strips trailing punctuation with `re.sub(r"[\.,;:]+$", "", u)`
(app.py lines 66-69 and 461-462). -/

/-- A character the URL regex body class `[^\s\)\]]` accepts. -/
def isUrlChar (c : Char) : Bool := !(isPySpace c || c = ')' || c = ']')

/-- Trailing punctuation stripped from a URL: the class `[\.,;:]`. -/
def isTrailPunct (c : Char) : Bool := c = '.' || c = ',' || c = ';' || c = ':'

/-- Strips a trailing run of `.,;:` — the effect of
`re.sub(r"[\.,;:]+$", "", u)`. -/
def stripTrailPunct (cs : List Char) : List Char :=
  (cs.reverse.dropWhile isTrailPunct).reverse

/-- One attempt of the regex `https?://[^\s\)\]]+` at the current
position: the optional `s` is tried greedily, and the body class must
match at least one character.  Returns the match and the rest of the
input. -/
def tryUrlMatch (cs : List Char) : Option (List Char × List Char) :=
  if beginsWithL "https://".data cs then
    let body := (cs.drop 8).takeWhile isUrlChar
    if body.isEmpty then none
    else some ("https://".data ++ body, (cs.drop 8).dropWhile isUrlChar)
  else if beginsWithL "http://".data cs then
    let body := (cs.drop 7).takeWhile isUrlChar
    if body.isEmpty then none
    else some ("http://".data ++ body, (cs.drop 7).dropWhile isUrlChar)
  else none

/-- The left-to-right non-overlapping scan of `re.findall`: on a match the
scan resumes after it, otherwise it advances one character.  Fuel is the
input length (each step consumes at least one character). -/
def scanUrlsFuel : Nat → List Char → List (List Char)
  | 0, _ => []
  | _, [] => []
  | n + 1, c :: cs =>
    match tryUrlMatch (c :: cs) with
    | some (u, rest) => u :: scanUrlsFuel n rest
    | none => scanUrlsFuel n cs

/-- The Text Scanner: all URL matches in order, trailing punctuation
stripped (app.py lines 66-69 / 461-462). -/
def findUrls (s : String) : List String :=
  (scanUrlsFuel s.data.length s.data).map (fun l => String.mk (stripTrailPunct l))

/-! ## Metadata Client (`extract_pubmed_metadata`, app.py lines 13-90)

The INDRA call's result is an arbitrary Python value; `PyVal` models the
JSON-like shapes it can take, and operations that CPython would fail on
(attribute access on a non-dict, `re` functions on a non-string) run in
`Except String`, the error being the uncaught exception. -/

/-- A dynamic Python value as returned by the bibliographic service. -/
inductive PyVal where
  | pnone
  | pstr (s : String)
  | pint (n : Int)
  | plist (xs : List PyVal)
  | pdict (kvs : List (String × PyVal))

/-- Python truthiness. -/
def pyTruthy : PyVal → Bool
  | .pnone => false
  | .pstr s => s ≠ ""
  | .pint n => n ≠ 0
  | .plist xs => !xs.isEmpty
  | .pdict kvs => !kvs.isEmpty

/-- Python `a or b`. -/
def pyOrV (a b : PyVal) : PyVal := if pyTruthy a then a else b

/-- Python `str(x)`.  Container reprs are abbreviated; no theorem depends
on them (the source only calls `str` on author entries and keyword
values). -/
def pyStr : PyVal → String
  | .pnone => "None"
  | .pstr s => s
  | .pint n => toString n
  | .plist _ => "[...]"
  | .pdict _ => "\x7b...\x7d"

/-- Reading a field that the source stores into its result dictionary:
falsy values were already replaced by `""` (`item.get(k) or ""`), and the
model presents the surviving value as a string. -/
def pyFieldStr (v : PyVal) : String := if pyTruthy v then pyStr v else ""

/-- `x.get(k)` — an `AttributeError` on anything but a dict. -/
def pyGet : PyVal → String → Except String PyVal
  | .pdict kvs, k => .ok (((kvs.find? (fun kv => kv.fst == k)).map (·.snd)).getD .pnone)
  | .pnone, _ => .error "AttributeError: NoneType object has no attribute get"
  | _, _ => .error "AttributeError: object has no attribute get"

/-- `x[0]` as used on the authors value (app.py lines 47-50). -/
def pyIndex0 : PyVal → Except String PyVal
  | .plist (x :: _) => .ok x
  | .plist [] => .error "IndexError: list index out of range"
  | .pstr s => if s = "" then .error "IndexError: string index out of range"
               else .ok (.pstr (String.mk [s.data.head!]))
  | .pdict _ => .error "KeyError: 0"
  | _ => .error "TypeError: object is not subscriptable"

/-- A value handed to an `re` function — a `TypeError` unless a string. -/
def pyExpectStr : PyVal → Except String String
  | .pstr s => .ok s
  | _ => .error "TypeError: expected string or bytes-like object"

/-- Decimal value of a digit run. -/
def digitsToNat (cs : List Char) : Nat :=
  cs.foldl (fun n c => 10 * n + (c.toNat - 48)) 0

/-- Python `int(x)` as an option (the source wraps it in try/except):
`int` of an int is itself; `int` of a string strips whitespace and
accepts an optional sign before digits; everything else fails. -/
def pyToInt : PyVal → Option Int
  | .pint n => some n
  | .pstr s =>
    let cs := pyStripL s.data
    let (sign, ds) : Int × List Char :=
      match cs with
      | '-' :: rest => (-1, rest)
      | '+' :: rest => (1, rest)
      | _ => (1, cs)
    if ds.isEmpty || !ds.all Char.isDigit then none
    else some (sign * (digitsToNat ds : Nat))
  | _ => none

/-- The first match of `re.search(r"(19|20)\d{2}", pubdate)` as a year. -/
def searchYear : List Char → Option Int
  | c1 :: c2 :: c3 :: c4 :: rest =>
    if ((c1 = '1' && c2 = '9') || (c1 = '2' && c2 = '0')) && c3.isDigit && c4.isDigit then
      some ((1000 * (c1.toNat - 48) + 100 * (c2.toNat - 48) +
             10 * (c3.toNat - 48) + (c4.toNat - 48) : Nat) : Int)
    else searchYear (c2 :: c3 :: c4 :: rest)
  | _ => none

/-- The normalized record the Metadata Client returns on success. -/
structure PubmedMetadata where
  title : String
  doi : String
  abstract : String
  first_author : String
  pmid : String
  year : Option Int
  homepage : String
  keywords : List String
deriving DecidableEq, Repr

/-- Result dictionary of the Metadata Client: either an `error` field or
the metadata record (the error messages built by the source are all
non-empty, so the `error` field is always truthy). -/
inductive MetaOutcome where
  | err (msg : String)
  | meta (pm : PubmedMetadata)
deriving DecidableEq, Repr

/-- What the external bibliographic service does on this request: the
INDRA import fails, the fetch raises, or a value is returned. -/
inductive ServiceBehavior where
  | importError (msg : String)
  | fetchError (msg : String)
  | returns (raw : PyVal)

/-- `raw.get(str(pmid))` with default `None`. -/
def dictGet (kvs : List (String × PyVal)) (k : String) : PyVal :=
  ((kvs.find? (fun kv => kv.fst == k)).map (·.snd)).getD .pnone

/-- `list(raw.values())[0]`; only evaluated when `raw` is truthy, hence
non-empty. -/
def firstVal (kvs : List (String × PyVal)) : PyVal :=
  ((kvs.head?.map (·.snd)).getD .pnone)

/-- The keyword normalization of app.py lines 72-79. -/
def metaKeywords (kwV : PyVal) : List String :=
  if pyTruthy kwV then
    match kwV with
    | .plist xs => (xs.filter pyTruthy).map (fun x => pyStrip (pyStr x))
    | _ => ((splitOnComma (pyStr kwV)).map pyStrip).filter (· ≠ "")
  else []

/-- `extract_pubmed_metadata` (app.py lines 13-90).  An `Except.error` is
an exception escaping the function; `.ok` is the returned dictionary. -/
def extract_pubmed_metadata (pmid : String) (svc : ServiceBehavior) :
    Except String MetaOutcome :=
  match svc with
  | .importError e => .ok (.err ("INDRA import error: " ++ e))
  | .fetchError e => .ok (.err ("PubMed fetch error: " ++ e))
  | .returns raw =>
    if !pyTruthy raw then .ok (.err "No metadata returned from PubMed")
    else do
      let item : PyVal :=
        match raw with
        | .pdict kvs => pyOrV (dictGet kvs pmid) (firstVal kvs)
        | _ => raw
      let titleV ← pyGet item "title"
      let title := pyFieldStr titleV
      let doiV ← pyGet item "doi"
      let elocV ← pyGet item "elocationid"
      let doi := pyFieldStr (pyOrV doiV elocV)
      let abstractV ← pyGet item "abstract"
      let authorsV ← pyGet item "authors"
      let authorListV ← pyGet item "author_list"
      let authors := pyOrV (pyOrV authorsV authorListV) (.plist [])
      let first_author ←
        if pyTruthy authors then do
          let a0 ← pyIndex0 authors
          match a0 with
          | .pdict _ => do
            let nameV ← pyGet a0 "name"
            let fullnameV ← pyGet a0 "fullname"
            pure (pyFieldStr (pyOrV nameV fullnameV))
          | _ => pure (pyStr a0)
        else pure ""
      let yearV ← pyGet item "year"
      let year ←
        if pyTruthy yearV then pure (pyToInt yearV)
        else do
          let pdV ← pyGet item "pubdate"
          let pubdate ← pyExpectStr (pyOrV pdV (.pstr ""))
          pure (searchYear pubdate.data)
      let abstract ← pyExpectStr (pyOrV abstractV (.pstr ""))
      let urls := findUrls abstract
      let homepage := urls.headD ""
      let keywords ←
        match item with
        | .pdict _ => do
          let k1 ← pyGet item "keywords"
          let k2 ← pyGet item "mesh_terms"
          let k3 ← pyGet item "keyword"
          let k4 ← pyGet item "subject"
          pure (metaKeywords (pyOrV (pyOrV (pyOrV k1 k2) k3) k4))
        | _ => pure []
      pure (.meta { title, doi, abstract, first_author, pmid, year, homepage, keywords })

/-! ## Database-Info Extractor (`extract_database_info`, app.py lines 93-341)

Everything after `result = await agent.run()` is pure text processing of
the agent's final answer, modelled here as an input string.  An exception
raised while invoking the agent is modelled at the endpoint
(`ScrapeOutcome.raises`). -/

/-- Contact sub-record of the extractor's output. -/
structure ContactInfo where
  email : String
  name : String
  orcid : String
deriving DecidableEq, Repr

/-- The extractor's returned record (app.py lines 327-341).  `pfx` is the
source's `prefix` key. -/
structure DatabaseInfo where
  name : String
  pfx : String
  description : String
  homepage : String
  example_ : String
  pattern : String
  uri_format : String
  keywords : List String
  contact : ContactInfo
deriving DecidableEq, Repr

/-- The mutable `extracted` dictionary of the parsing loop (app.py lines
247-251), with the source's all-empty initial values as defaults. -/
structure Extracted where
  name : String := ""
  pfx : String := ""
  description : String := ""
  homepage : String := ""
  example_ : String := ""
  pattern : String := ""
  uri_format : String := ""
  contact_name : String := ""
  contact_email : String := ""
  keywords : List String := []
deriving DecidableEq, Repr

/-- Python `text.replace('\\n', '\n')`: each two-character backslash-n
sequence becomes a newline, scanning left to right. -/
def replaceEscapedNL : List Char → List Char
  | '\\' :: 'n' :: rest => '\n' :: replaceEscapedNL rest
  | c :: rest => c :: replaceEscapedNL rest
  | [] => []

/-- Python `str.splitlines()` restricted to the `\n`, `\r\n` and `\r`
line breaks (the agent text never carries the exotic ones); a trailing
break opens no empty final line. -/
def splitLinesAux : List Char → List Char → List String
  | [], acc => if acc.isEmpty then [] else [String.mk acc.reverse]
  | '\r' :: '\n' :: rest, acc => String.mk acc.reverse :: splitLinesAux rest []
  | '\n' :: rest, acc => String.mk acc.reverse :: splitLinesAux rest []
  | '\r' :: rest, acc => String.mk acc.reverse :: splitLinesAux rest []
  | c :: rest, acc => splitLinesAux rest (c :: acc)

/-- Python `text.splitlines()`. -/
def splitLinesPy (s : String) : List String := splitLinesAux s.data []

/-- Index of the first `:` in a line, if any. -/
def firstColonIdx : List Char → Option Nat
  | [] => none
  | c :: cs =>
    if c = ':' then some 0
    else (firstColonIdx cs).map (· + 1)

/-- The line match `re.match(r"^\s*([^:]+)\s*:\s*(.*)$", ln)` followed by
`.strip()` on both groups (app.py lines 255-259).  The greedy `[^:]+`
runs to the first colon, which must be preceded by at least one
character; with the surrounding `\s*` and the strips, this is: split at
the first colon and strip both sides. -/
def parseLabelLine (ln : String) : Option (String × String) :=
  match firstColonIdx ln.data with
  | none => none
  | some 0 => none
  | some k => some (pyStrip (String.mk (ln.data.take k)),
                    pyStrip (String.mk (ln.data.drop (k + 1))))

/-- A separator for label normalization: the class `[_\-\s]`. -/
def isLabelSep (c : Char) : Bool := c = '_' || c = '-' || isPySpace c

/-- `re.sub(r"[_\-\s]+", "_", raw_label)`: each maximal separator run
becomes one underscore. -/
def collapseSepsAux : List Char → Bool → List Char
  | [], _ => []
  | c :: cs, prevSep =>
    if isLabelSep c then
      if prevSep then collapseSepsAux cs true
      else '_' :: collapseSepsAux cs true
    else c :: collapseSepsAux cs false

/-- Label normalization of app.py line 262: collapse separators, then
lowercase. -/
def normalizeLabel (raw : String) : String :=
  pyLower (String.mk (collapseSepsAux raw.data false))

/-- Substring test worker: does `pat` occur in the list? -/
def containsSubAux (pat : List Char) : List Char → Bool
  | [] => pat.isEmpty
  | l@(_ :: cs) => beginsWithL pat l || containsSubAux pat cs

/-- Python `'pat' in s` substring test. -/
def containsSub (pat : String) (s : String) : Bool :=
  containsSubAux pat.data s.data

/-- Python `val.replace('\\\\', '\\')`: un-escape doubled backslashes
(app.py line 276). -/
def unescapeBackslashes : List Char → List Char
  | '\\' :: '\\' :: rest => '\\' :: unescapeBackslashes rest
  | c :: rest => c :: unescapeBackslashes rest
  | [] => []

/-- Keyword parsing of app.py line 285: split on commas, strip, drop
empties, cap at 3. -/
def parseKeywords (val : String) : List String :=
  (((splitOnComma val).map pyStrip).filter (· ≠ "")).take 3

/-- One iteration of the parsing loop (app.py lines 254-285): dispatch on
the normalized label, unrecognized lines leave the state unchanged. -/
def applyLine (e : Extracted) (ln : String) : Extracted :=
  match parseLabelLine ln with
  | none => e
  | some (rawLabel, val) =>
    let labelNorm := normalizeLabel rawLabel
    if labelNorm = "name" then { e with name := val }
    else if labelNorm = "prefix" then { e with pfx := pyLower val }
    else if labelNorm = "description" then { e with description := val }
    else if labelNorm = "homepage" then { e with homepage := val }
    else if labelNorm = "example" then { e with example_ := val }
    else if labelNorm = "pattern" then
      { e with pattern := String.mk (unescapeBackslashes val.data) }
    else if containsSub "uri" labelNorm && containsSub "format" labelNorm then
      { e with uri_format := val }
    else if labelNorm = "contact_name" then { e with contact_name := val }
    else if labelNorm = "contact_email" then { e with contact_email := val }
    else if labelNorm = "keywords" then { e with keywords := parseKeywords val }
    else e

/-! ### Post-processing heuristics (app.py lines 287-313) -/

/-- The email local-part class `[A-Za-z0-9._%+-]`. -/
def isLocalChar (c : Char) : Bool :=
  c.isAlphanum || c = '.' || c = '_' || c = '%' || c = '+' || c = '-'

/-- The email domain class `[A-Za-z0-9.-]`. -/
def isDomChar (c : Char) : Bool := c.isAlphanum || c = '.' || c = '-'

/-- Is position `j` of the domain run a dot followed by at least two
letters?  The regex `[A-Za-z0-9.-]+\.[A-Za-z]{2,}` backtracks from the
longest domain prefix, so the split point is the largest such `j ≥ 1`. -/
def goodDotSplit (d : List Char) (j : Nat) : Bool :=
  decide (1 ≤ j) &&
    match d.drop j with
    | '.' :: rest => decide (2 ≤ (rest.takeWhile Char.isAlpha).length)
    | _ => false

/-- Splits the maximal domain run as the backtracking regex does:
largest dot position with a 2+ letter run after it. -/
def domSplit (d : List Char) : Option (List Char × List Char) :=
  match ((List.range d.length).filter (goodDotSplit d)).getLast? with
  | some j => some (d.take j, (d.drop (j + 1)).takeWhile Char.isAlpha)
  | none => none

/-- A match of `[A-Za-z0-9._%+-]+@[A-Za-z0-9.-]+\.[A-Za-z]{2,}` starting
exactly at the head of `cs`: the greedy local part must run into the `@`
(shorter local parts are followed by a local character, never `@`).
Returns the matched email and the rest of the input. -/
def emailAt (cs : List Char) : Option (List Char × List Char) :=
  let loc := cs.takeWhile isLocalChar
  if loc.isEmpty then none
  else
    match cs.drop loc.length with
    | '@' :: afterAt =>
      let d := afterAt.takeWhile isDomChar
      match domSplit d with
      | some (dom, tld) =>
        let em := loc ++ '@' :: (dom ++ '.' :: tld)
        some (em, cs.drop (loc.length + 1 + dom.length + 1 + tld.length))
      | none => none
    | _ => none

/-- Leftmost email match of `re.search` (app.py line 289), scanning one
position at a time. -/
def findEmailFuel : Nat → List Char → Option String
  | 0, _ => none
  | _, [] => none
  | n + 1, l@(_ :: cs) =>
    match emailAt l with
    | some (em, _) => some (String.mk em)
    | none => findEmailFuel n cs

/-- `re.search` for an email inside the contact-name text. -/
def findEmail (s : String) : Option String := findEmailFuel s.data.length s.data

/-- A match of `\s*[\(\[]?EMAIL[\)\]]?\s*` anchored at the head: greedy
whitespace, an optional opening bracket (backtracking cannot help: a
bracket or space is never a local character), the email, an optional
closing bracket, trailing whitespace.  Returns the rest of the input. -/
def emailSpanAt (cs : List Char) : Option (List Char) :=
  let afterWs := cs.dropWhile isPySpace
  let afterBr :=
    match afterWs with
    | c :: rest => if c = '(' || c = '[' then rest else afterWs
    | [] => afterWs
  match emailAt afterBr with
  | none => none
  | some (_, afterEm) =>
    let afterCl :=
      match afterEm with
      | c :: rest => if c = ')' || c = ']' then rest else afterEm
      | [] => afterEm
    some (afterCl.dropWhile isPySpace)

/-- The global `re.sub(r'\s*[\(\[]?EMAIL[\)\]]?\s*', '', name)` of
app.py line 292: remove every occurrence, scanning left to right. -/
def removeEmailSpansFuel : Nat → List Char → List Char
  | 0, cs => cs
  | _, [] => []
  | n + 1, l@(c :: cs) =>
    match emailSpanAt l with
    | some rest => removeEmailSpansFuel n rest
    | none => c :: removeEmailSpansFuel n cs

/-- Strips email occurrences (with surrounding bracket/space) out of the
contact-name text. -/
def removeEmailSpans (s : String) : String :=
  String.mk (removeEmailSpansFuel s.data.length s.data)

/-- Count of digit characters: `len(re.findall(r'\d', example))`. -/
def countDigits (s : String) : Nat := (s.data.filter Char.isDigit).length

/-- Pattern inference from the example (app.py lines 294-303).  The match
`re.match(r'^[A-Z]+\d+$', example)` holds exactly when the maximal
leading uppercase run is non-empty and the non-empty remainder is all
digits (`[A-Z]+` is greedy and a digit can never extend it); `^\d+$`
when the example is non-empty and all digits. -/
def inferPattern (example_ : String) : String :=
  let letters := example_.data.takeWhile Char.isUpper
  let rest := example_.data.drop letters.length
  if !letters.isEmpty && !rest.isEmpty && rest.all Char.isDigit then
    "^" ++ String.mk letters ++ "\\d\x7b" ++ toString (countDigits example_) ++ "\x7d$"
  else if !example_.data.isEmpty && example_.data.all Char.isDigit then
    "^\\d\x7b" ++ toString example_.data.length ++ "\x7d$"
  else ""

/-- Prefix derivation from the name (app.py lines 309-313): first
character of each whitespace-separated word, joined and lowercased. -/
def derivePrefixFromName (name : String) : String :=
  pyLower (String.join (((splitRuns isPySpace name.data).filter (!·.isEmpty)).map
    (fun w => String.mk (w.take 1))))

/-- Heuristic 1 (app.py lines 288-292): if no contact email was parsed
but one is embedded in the contact-name text, move it to the email field
and strip it (with surrounding bracket and space) out of the name. -/
def emailStep (e : Extracted) : Extracted :=
  if e.contact_email = "" && e.contact_name ≠ "" then
    match findEmail e.contact_name with
    | some em => { e with contact_email := em
                          contact_name := pyStrip (removeEmailSpans e.contact_name) }
    | none => e
  else e

/-- Heuristic 2 (app.py lines 294-303): infer the pattern from the
example when the pattern is empty. -/
def patternStep (e : Extracted) : Extracted :=
  if e.pattern = "" && e.example_ ≠ "" then
    { e with pattern := inferPattern e.example_ }
  else e

/-- Heuristic 3 (app.py lines 305-307): default the homepage to the
input URL. -/
def homepageStep (homepage_url : String) (e : Extracted) : Extracted :=
  if e.homepage = "" then { e with homepage := homepage_url } else e

/-- Heuristic 4 (app.py lines 309-313): derive the prefix from the name. -/
def prefixStep (e : Extracted) : Extracted :=
  if e.pfx = "" && e.name ≠ "" then
    { e with pfx := derivePrefixFromName e.name }
  else e

/-- The four post-processing heuristics of app.py lines 287-313, in
source order. -/
def postProcess (homepage_url : String) (e : Extracted) : Extracted :=
  prefixStep (homepageStep homepage_url (patternStep (emailStep e)))

/-- `extract_database_info` after the agent answered: un-escape newlines,
parse the labelled lines, post-process, and assemble the returned
dictionary (app.py lines 243-341). -/
def extract_database_info (homepage_url : String) (finalAnswer : String) :
    DatabaseInfo :=
  let text := String.mk (replaceEscapedNL finalAnswer.data)
  let lines := ((splitLinesPy text).map pyStrip).filter (· ≠ "")
  let e := postProcess homepage_url (lines.foldl applyLine {})
  { name := e.name
    pfx := e.pfx
    description := e.description
    homepage := e.homepage
    example_ := e.example_
    pattern := e.pattern
    uri_format := e.uri_format
    keywords := e.keywords
    contact := { email := e.contact_email, name := e.contact_name, orcid := "" } }

/-! ## Record Assembler (`format_bioregistry_json`, app.py lines 344-429) -/

/-- Caller-supplied contributor object (optional sub-fields default to
the empty string at the assembler). -/
structure ContributorInfo where
  name : String
  email : String
  orcid : String
  github : String
deriving DecidableEq, Repr

/-- One entry of the `publications` list (app.py lines 405-410). -/
structure Publication where
  doi : String
  pubmed : String
  title : String
  year : Option Int
deriving DecidableEq, Repr

/-- The fixed-schema record placed under the derived key. -/
structure BioregRecord where
  contact : ContactInfo
  contributor : ContributorInfo
  description : String
  example_ : String
  github_request_issue : String
  homepage : String
  keywords : List String
  name : String
  pattern : String
  publications : List Publication
  uri_format : String
deriving DecidableEq, Repr

/-- The assembler's output `{db_key: {...}}`: a single-key mapping. -/
structure BioregOut where
  key : String
  entry : BioregRecord
deriving DecidableEq, Repr

/-- A character the domain-label capture `[^/\.]` accepts. -/
def isDomLabelChar (c : Char) : Bool := !(c = '/' || c = '.')

/-- The capture of `https?://(?:www\.)?([^/\.]+)` once the scheme has
been consumed: if the text continues `www.`, the greedy optional group
takes it and the capture is the following run of non-`/`/`.` characters;
when that run is empty the group backtracks and the capture starts at
the `w`s (hence is exactly `www`).  Without `www.` the capture is the
maximal run, and the position fails when it is empty. -/
def domainAfterScheme (cs : List Char) : Option String :=
  if beginsWithL "www.".data cs then
    let run := (cs.drop 4).takeWhile isDomLabelChar
    if run.isEmpty then some "www" else some (String.mk run)
  else
    let run := cs.takeWhile isDomLabelChar
    if run.isEmpty then none else some (String.mk run)

/-- The scan of `re.search(r"https?://(?:www\.)?([^/\.]+)", homepage)`
(app.py line 353): leftmost position where the scheme matches and the
capture succeeds. -/
def searchDomainFuel : Nat → List Char → Option String
  | 0, _ => none
  | _, [] => none
  | n + 1, l@(_ :: cs) =>
    let attempt :=
      if beginsWithL "https://".data l then domainAfterScheme (l.drop 8)
      else if beginsWithL "http://".data l then domainAfterScheme (l.drop 7)
      else none
    match attempt with
    | some lab => some lab
    | none => searchDomainFuel n cs

/-- Leftmost domain label of a homepage URL, if any. -/
def searchDomainLabel (s : String) : Option String :=
  searchDomainFuel s.data.length s.data

/-- Does `(?:\.\d+)*$` match this remainder?  Each group is a dot and a
maximal digit run (shrinking a greedy digit run can never help, since
the next character would then be a digit, matching neither `\.` nor the
end). -/
def dotDigitGroupsFuel : Nat → List Char → Bool
  | _, [] => true
  | 0, _ => false
  | n + 1, c :: rest =>
    c = '.' && !(rest.takeWhile Char.isDigit).isEmpty &&
      dotDigitGroupsFuel n (rest.dropWhile Char.isDigit)

/-- `\s*\d+(?:\.\d+)*$` from this position. -/
def digitsDotTail (cs : List Char) : Bool :=
  let r := cs.dropWhile isPySpace
  let ds := r.takeWhile Char.isDigit
  !ds.isEmpty && dotDigitGroupsFuel (r.dropWhile Char.isDigit).length (r.dropWhile Char.isDigit)

/-- Does `(?i)\s*(?:v|version)\s*\d+(?:\.\d+)*$` match starting exactly
here and running to the end of the string? -/
def versionTailFrom (cs : List Char) : Bool :=
  let r := cs.dropWhile isPySpace
  (match r with
   | c :: rest => (c = 'v' || c = 'V') && digitsDotTail rest
   | [] => false) ||
  (beginsWithL "version".data (r.map Char.toLower) && digitsDotTail (r.drop 7))

/-- `re.sub(r"(?i)\s*(?:v|version)\s*\d+(?:\.\d+)*$", "", name)`
(app.py line 359): every match ends at the end of the string, so the sub
removes the leftmost-starting (longest) matching suffix, if any. -/
def stripVersionSuffix (s : String) : String :=
  match (List.range s.data.length).find? (fun i => versionTailFrom (s.data.drop i)) with
  | some i => String.mk (s.data.take i)
  | none => s

/-- Prefix cleanup of app.py line 361: `re.sub(r"[^0-9a-zA-Z]+", "",
clean_name).lower()`. -/
def alnumLower (s : String) : String :=
  String.mk ((s.data.filter Char.isAlphanum).map Char.toLower)

/-- `format_bioregistry_json` (app.py lines 344-429).  `pubmed` is
`none` for the Python `None` argument; at every call site of the
endpoint it is a populated metadata dictionary, so the `none` branches
of the homepage fallbacks (which would raise in CPython) yield `""`
here and are never exercised by the theorems below. -/
def format_bioregistry_json (pubmed : Option PubmedMetadata)
    (db : Option DatabaseInfo) (contributor : Option ContributorInfo) : BioregOut :=
  let name0 := pyStrip (match db with | some d => d.name | none => "")
  let pfx0 := pyStrip (match db with | some d => d.pfx | none => "")
  let pmHomepage := match pubmed with | some p => p.homepage | none => ""
  let name :=
    if name0 = "" then
      let homepage := pyOrStr (match db with | some d => d.homepage | none => "") pmHomepage
      match searchDomainLabel homepage with
      | some lab => lab
      | none => "database"
    else name0
  let pfx :=
    if pfx0 = "" then
      let clean_name := pyStrip (stripVersionSuffix name)
      pyOrStr (alnumLower clean_name) "database_key"
    else pfx0
  let contact := match db with | some d => d.contact | none => ⟨"", "", ""⟩
  let contributor_info := match contributor with
    | some c => c
    | none => ⟨"", "", "", ""⟩
  let description := match db with | some d => d.description | none => ""
  let example_ := match db with | some d => d.example_ | none => ""
  let homepage := pyOrStr (match db with | some d => d.homepage | none => "") pmHomepage
  let pattern := match db with | some d => d.pattern | none => ""
  let uri_format := match db with | some d => d.uri_format | none => ""
  let keywords :=
    match pubmed with
    | some p =>
      if !p.keywords.isEmpty then p.keywords
      else match db with
        | some d => d.keywords
        | none => []
    | none => match db with | some d => d.keywords | none => []
  let publications :=
    match pubmed with
    | some p => [{ doi := p.doi, pubmed := p.pmid, title := p.title,
                   year := match p.year with
                           | some y => if y = 0 then none else some y
                           | none => none : Publication }]
    | none => []
  { key := pfx
    entry := { contact, contributor := contributor_info, description, example_,
               github_request_issue := "", homepage, keywords, name, pattern,
               publications, uri_format } }

/-! ## HTTP Endpoint (`extract`, app.py lines 437-500) -/

/-- What the scraping step does: the agent call (or anything inside the
`try` of lines 479-490) raises with this message, or the agent completes
with this final answer text. -/
inductive ScrapeOutcome where
  | raises (msg : String)
  | agentReply (finalAnswer : String)

/-- A JSON response together with its HTTP status code.  `message` and
`data` are `none` when the corresponding key is absent from the body. -/
structure HttpResponse where
  statusCode : Nat
  status : String
  message : Option String
  data : Option BioregOut
deriving DecidableEq, Repr

/-- The fixed validation message of app.py line 444. -/
def invalidPmidMsg : String := "Invalid PMID. Provide numeric PMID like 12345678."

/-- The no-homepage message of app.py line 469. -/
def noUrlMsg : String :=
  "No homepage URL found in the PubMed abstract; cannot run browser-use scraping."

/-- `re.fullmatch(r"\d+", pmid)` together with the preceding `not pmid`
check (app.py line 443). -/
def validPmid (s : String) : Bool := s ≠ "" && s.data.all Char.isDigit

/-- The `/extract` endpoint (app.py lines 437-500): validate, fetch
metadata, scan the abstract for URLs, scrape, assemble.  `pmidOpt` is
the request body's `pmid` value (absent or a string), `svc` the
bibliographic service's behaviour, `scr` the scraping step's behaviour.
An exception escaping `extract_pubmed_metadata` is caught by the
handler's outer `except` and surfaced as a 500 with `str(e)`. -/
def extract (pmidOpt : Option String) (contributor : Option ContributorInfo)
    (svc : ServiceBehavior) (scr : ScrapeOutcome) : HttpResponse :=
  let pmid := pyStrip (pmidOpt.getD "")
  if !validPmid pmid then
    { statusCode := 400, status := "error", message := some invalidPmidMsg, data := none }
  else
    match extract_pubmed_metadata pmid svc with
    | .error e =>
      { statusCode := 500, status := "error", message := some e, data := none }
    | .ok (.err msg) =>
      { statusCode := 500, status := "error", message := some msg, data := none }
    | .ok (.meta pm) =>
      match findUrls pm.abstract with
      | [] =>
        { statusCode := 400, status := "error", message := some noUrlMsg,
          data := some (format_bioregistry_json (some pm) none contributor) }
      | homepage_url :: _ =>
        match scr with
        | .raises e =>
          { statusCode := 500, status := "error",
            message := some ("Database scraping failed: " ++ e),
            data := some (format_bioregistry_json (some pm) none contributor) }
        | .agentReply finalAnswer =>
          { statusCode := 200, status := "success", message := none,
            data := some (format_bioregistry_json (some pm)
              (some (extract_database_info homepage_url finalAnswer)) contributor) }

/-! ## Definitions written from the specification's words

These two definitions follow the specification text, not the source;
they exist to be compared against the source-derived functions above. -/

/-- The Text Scanner rule as the specification words it: every maximal
run of non-whitespace, non-`)`, non-`]` characters that begins with
`http://` or `https://`, in order, with trailing `.,;:` stripped. -/
def urlScanClaim (s : String) : List String :=
  ((splitRuns (fun c => isPySpace c || c = ')' || c = ']') s.data).filter
    (fun tok => beginsWithL "http://".data tok || beginsWithL "https://".data tok)).map
    (fun tok => String.mk (stripTrailPunct tok))

/-- The assembler's name rule as the specification words it: the text of
the homepage between an optional `www.` and the next dot or slash,
defaulting to `database` when no homepage is available. -/
def nameRuleClaim (homepage : String) : String :=
  if homepage = "" then "database"
  else
    let cs := if beginsWithL "www.".data homepage.data
              then homepage.data.drop 4 else homepage.data
    let lab := cs.takeWhile (fun c => !(c = '.' || c = '/'))
    if lab.isEmpty then "database" else String.mk lab

/-! ## Accessors used to state the assembler theorems -/

/-- `db.get("name") if db else ""`. -/
def dbName : Option DatabaseInfo → String
  | some d => d.name
  | none => ""

/-- `db.get("prefix") if db else ""`. -/
def dbPfx : Option DatabaseInfo → String
  | some d => d.pfx
  | none => ""

/-- `db.get("homepage") if db else ""`. -/
def dbHomepage : Option DatabaseInfo → String
  | some d => d.homepage
  | none => ""

/-- The source's name derivation once the scheme scan is factored out:
leftmost domain label after `http(s)://` and optional `www.`, else the
placeholder. -/
def domainNameRule (homepage : String) : String :=
  match searchDomainLabel homepage with
  | some lab => lab
  | none => "database"

/-- The source's prefix derivation from a resolved name: strip a
trailing version suffix, keep alphanumerics lowercased, else the
placeholder. -/
def prefixRule (resolved : String) : String :=
  pyOrStr (alnumLower (stripVersionSuffix resolved)) "database_key"

/-! ## Helper lemmas -/

/-- An uppercase ASCII letter is not a digit. -/
theorem isUpper_not_isDigit {c : Char} (h : c.isUpper = true) : c.isDigit = false := by
  simp only [Char.isUpper, Bool.and_eq_true, decide_eq_true_eq] at h
  simp only [Char.isDigit]
  rw [Bool.and_eq_false_iff]
  right
  rw [decide_eq_false_iff_not]
  simp only [UInt32.le_def, BitVec.le_def,
    show ((65 : UInt32).toBitVec).toNat = 65 from rfl,
    show ((57 : UInt32).toBitVec).toNat = 57 from rfl] at *
  omega

/-- A digit is not an uppercase ASCII letter. -/
theorem isDigit_not_isUpper {c : Char} (h : c.isDigit = true) : c.isUpper = false := by
  simp only [Char.isDigit, Bool.and_eq_true, decide_eq_true_eq] at h
  simp only [Char.isUpper]
  rw [Bool.and_eq_false_iff]
  left
  rw [decide_eq_false_iff_not]
  simp only [UInt32.le_def, BitVec.le_def,
    show ((65 : UInt32).toBitVec).toNat = 65 from rfl,
    show ((57 : UInt32).toBitVec).toNat = 57 from rfl] at *
  omega

/-- Whitespace characters are not alphanumeric. -/
theorem isPySpace_not_isAlphanum {c : Char} (h : isPySpace c = true) :
    c.isAlphanum = false := by
  unfold isPySpace at h
  simp only [Bool.or_eq_true, decide_eq_true_eq] at h
  rcases h with ((((h | h) | h) | h) | h) | h <;> subst h <;> decide

/-- Dropping a run of characters that all fail `p` leaves `filter p`
unchanged. -/
theorem filter_dropWhile_of_imp {p q : Char → Bool}
    (hpq : ∀ c, q c = true → p c = false) :
    ∀ l : List Char, (l.dropWhile q).filter p = l.filter p := by
  intro l
  induction l with
  | nil => rfl
  | cons c cs ih =>
    by_cases h : q c
    · rw [List.dropWhile_cons_of_pos h, ih, List.filter_cons_of_neg (by simp [hpq c h])]
    · rw [List.dropWhile_cons_of_neg h]

/-- Stripping surrounding whitespace does not change the alphanumeric
content (app.py line 361 filters to alphanumerics anyway). -/
theorem alnumLower_pyStrip (s : String) : alnumLower (pyStrip s) = alnumLower s := by
  unfold alnumLower pyStrip pyStripL
  have hsp : ∀ c : Char, isPySpace c = true → c.isAlphanum = false :=
    fun c h => isPySpace_not_isAlphanum h
  simp only [List.filter_reverse, filter_dropWhile_of_imp hsp, List.reverse_reverse]

/-- `dropWhile` is idempotent. -/
theorem dropWhile_idem (p : Char → Bool) (l : List Char) :
    (l.dropWhile p).dropWhile p = l.dropWhile p := by
  induction l with
  | nil => rfl
  | cons c cs ih =>
    by_cases h : p c
    · rw [List.dropWhile_cons_of_pos h, ih]
    · rw [List.dropWhile_cons_of_neg h, List.dropWhile_cons_of_neg h]

/-- Stripping trailing punctuation is idempotent. -/
theorem stripTrailPunct_idem (l : List Char) :
    stripTrailPunct (stripTrailPunct l) = stripTrailPunct l := by
  unfold stripTrailPunct
  rw [List.reverse_reverse, dropWhile_idem]

/-- Stripping trailing punctuation from `pre ++ body` keeps `pre` intact
whenever `pre` ends in a non-punctuation character (here: the `/` of the
URL scheme). -/
theorem stripTrailPunct_append_keep (pre body : List Char) (c : Char) (t : List Char)
    (hrev : pre.reverse = c :: t) (hc : isTrailPunct c = false) :
    ∃ b, stripTrailPunct (pre ++ body) = pre ++ b := by
  unfold stripTrailPunct
  rw [List.reverse_append, hrev, List.dropWhile_append]
  split
  · rw [List.dropWhile_cons_of_neg (by simp [hc])]
    refine ⟨[], ?_⟩
    rw [← hrev, List.reverse_reverse, List.append_nil]
  · rw [List.reverse_append, ← hrev, List.reverse_reverse]
    exact ⟨_, rfl⟩

/-- Every raw URL match carries its scheme as a prefix. -/
theorem tryUrlMatch_some {l u rest : List Char} (h : tryUrlMatch l = some (u, rest)) :
    (∃ body, u = "https://".data ++ body) ∨ (∃ body, u = "http://".data ++ body) := by
  unfold tryUrlMatch at h
  split at h
  · dsimp only at h
    split at h
    · exact absurd h (by simp)
    · simp only [Option.some.injEq, Prod.mk.injEq] at h
      exact .inl ⟨_, h.1.symm⟩
  · split at h
    · dsimp only at h
      split at h
      · exact absurd h (by simp)
      · simp only [Option.some.injEq, Prod.mk.injEq] at h
        exact .inr ⟨_, h.1.symm⟩
    · exact absurd h (by simp)

/-- Every element the findall scan produces starts with a scheme. -/
theorem scanUrlsFuel_mem (n : Nat) : ∀ (l u : List Char), u ∈ scanUrlsFuel n l →
    (∃ body, u = "https://".data ++ body) ∨ (∃ body, u = "http://".data ++ body) := by
  induction n with
  | zero => intro l u h; simp [scanUrlsFuel] at h
  | succ n ih =>
    intro l u h
    match l with
    | [] => simp [scanUrlsFuel] at h
    | c :: cs =>
      rw [scanUrlsFuel] at h
      cases htm : tryUrlMatch (c :: cs) with
      | none => rw [htm] at h; exact ih cs u h
      | some pr =>
        obtain ⟨u', rest⟩ := pr
        rw [htm] at h
        rcases List.mem_cons.mp h with rfl | hmem
        · exact tryUrlMatch_some htm
        · exact ih rest u hmem

/-- Preservation lemmas: each post-processing heuristic touches only its
own fields. -/
theorem emailStep_fields (e : Extracted) :
    (emailStep e).pattern = e.pattern ∧ (emailStep e).example_ = e.example_ ∧
    (emailStep e).pfx = e.pfx ∧ (emailStep e).name = e.name ∧
    (emailStep e).keywords = e.keywords := by
  unfold emailStep
  split
  · split <;> exact ⟨rfl, rfl, rfl, rfl, rfl⟩
  · exact ⟨rfl, rfl, rfl, rfl, rfl⟩

/-- Pattern inference touches only the pattern field. -/
theorem patternStep_fields (e : Extracted) :
    (patternStep e).pfx = e.pfx ∧ (patternStep e).name = e.name ∧
    (patternStep e).keywords = e.keywords := by
  unfold patternStep
  split <;> exact ⟨rfl, rfl, rfl⟩

/-- The homepage fallback touches only the homepage field. -/
theorem homepageStep_fields (url : String) (e : Extracted) :
    (homepageStep url e).pattern = e.pattern ∧ (homepageStep url e).pfx = e.pfx ∧
    (homepageStep url e).name = e.name ∧ (homepageStep url e).keywords = e.keywords := by
  unfold homepageStep
  split <;> exact ⟨rfl, rfl, rfl, rfl⟩

/-- Prefix derivation touches only the prefix field. -/
theorem prefixStep_fields (e : Extracted) :
    (prefixStep e).pattern = e.pattern ∧ (prefixStep e).keywords = e.keywords := by
  unfold prefixStep
  split <;> exact ⟨rfl, rfl⟩

/-- Post-processing never changes the parsed keywords. -/
theorem postProcess_keywords (url : String) (e : Extracted) :
    (postProcess url e).keywords = e.keywords := by
  unfold postProcess
  rw [(prefixStep_fields _).2, (homepageStep_fields _ _).2.2.2,
      (patternStep_fields _).2.2, (emailStep_fields _).2.2.2.2]

/-- Post-processing sets the pattern from the example whenever the
parsed pattern is empty and the example is not. -/
theorem postProcess_pattern (url : String) (e : Extracted)
    (h1 : e.pattern = "") (h2 : e.example_ ≠ "") :
    (postProcess url e).pattern = inferPattern e.example_ := by
  unfold postProcess
  rw [(prefixStep_fields _).1, (homepageStep_fields _ _).1]
  unfold patternStep
  rw [(emailStep_fields _).1, (emailStep_fields _).2.1, h1]
  simp [h2]

/-- Post-processing sets the prefix from the name whenever the parsed
prefix is empty and the name is not. -/
theorem postProcess_pfx (url : String) (e : Extracted)
    (h1 : e.pfx = "") (h2 : e.name ≠ "") :
    (postProcess url e).pfx = derivePrefixFromName e.name := by
  unfold postProcess prefixStep
  rw [(homepageStep_fields _ _).2.1, (patternStep_fields _).1, (emailStep_fields _).2.2.1, h1,
      (homepageStep_fields _ _).2.2.1, (patternStep_fields _).2.1, (emailStep_fields _).2.2.2.1]
  simp [h2]

/-- A keyword list parsed from a `Keywords:` line has at most 3 entries. -/
theorem parseKeywords_length_le (val : String) : (parseKeywords val).length ≤ 3 := by
  unfold parseKeywords
  exact List.length_take_le 3 _

/-- One parsing-loop iteration keeps the keyword bound. -/
theorem applyLine_keywords_le (e : Extracted) (ln : String)
    (h : e.keywords.length ≤ 3) : (applyLine e ln).keywords.length ≤ 3 := by
  unfold applyLine
  cases hpl : parseLabelLine ln with
  | none => exact h
  | some p =>
    obtain ⟨lab, val⟩ := p
    dsimp only
    repeat' split
    all_goals first | exact h | exact parseKeywords_length_le _

/-- The whole parsing loop keeps the keyword bound. -/
theorem foldl_applyLine_keywords_le (lines : List String) :
    ∀ e : Extracted, e.keywords.length ≤ 3 →
      (lines.foldl applyLine e).keywords.length ≤ 3 := by
  induction lines with
  | nil => intro e h; exact h
  | cons ln rest ih =>
    intro e h
    exact ih (applyLine e ln) (applyLine_keywords_le e ln h)

/-- The maximal uppercase run of `letters ++ digits` is the letters. -/
theorem takeWhile_upper_letters_digits (L D : List Char)
    (hLu : ∀ a ∈ L, a.isUpper = true) (hD : D ≠ []) (hDd : ∀ a ∈ D, a.isDigit = true) :
    (L ++ D).takeWhile Char.isUpper = L := by
  rw [List.takeWhile_append_of_pos hLu]
  match D, hD with
  | d :: ds, _ =>
    rw [List.takeWhile_cons_of_neg, List.append_nil]
    simp [isDigit_not_isUpper (hDd d (by simp))]

/-- Pattern inference on an example of uppercase letters followed by
digits anchors the letter prefix and the digit count. -/
theorem inferPattern_upper_digits (L D : String) (hL : L ≠ "") (hLu : L.data.all Char.isUpper)
    (hD : D ≠ "") (hDd : D.data.all Char.isDigit) :
    inferPattern (L ++ D) = "^" ++ L ++ "\\d\x7b" ++ toString D.length ++ "\x7d$" := by
  have hLu' : ∀ a ∈ L.data, a.isUpper = true := List.all_eq_true.mp hLu
  have hDd' : ∀ a ∈ D.data, a.isDigit = true := List.all_eq_true.mp hDd
  have hDne : D.data ≠ [] := fun h => hD (String.ext h)
  have hLne : L.data ≠ [] := fun h => hL (String.ext h)
  have h1 : L.data.isEmpty = false := by
    cases hld : L.data with
    | nil => exact absurd hld hLne
    | cons a as => rfl
  have h2 : D.data.isEmpty = false := by
    cases hld : D.data with
    | nil => exact absurd hld hDne
    | cons a as => rfl
  have hcount : countDigits (L ++ D) = D.length := by
    unfold countDigits
    rw [String.data_append, List.filter_append]
    rw [List.filter_eq_nil_iff.mpr (fun a ha => by simp [isUpper_not_isDigit (hLu' a ha)])]
    rw [List.filter_eq_self.mpr hDd', List.nil_append]
    rfl
  unfold inferPattern
  dsimp only
  rw [String.data_append, takeWhile_upper_letters_digits L.data D.data hLu' hDne hDd',
    List.drop_left]
  rw [if_pos (by simp [h1, h2, hDd])]
  rw [hcount]

/-- Pattern inference on an all-digit example anchors its length. -/
theorem inferPattern_all_digits (s : String) (hs : s ≠ "") (hd : s.data.all Char.isDigit) :
    inferPattern s = "^\\d\x7b" ++ toString s.length ++ "\x7d$" := by
  have hd' : ∀ a ∈ s.data, a.isDigit = true := List.all_eq_true.mp hd
  have hne : s.data ≠ [] := fun h => hs (String.ext h)
  have hie : s.data.isEmpty = false := by
    cases hsd : s.data with
    | nil => exact absurd hsd hne
    | cons a as => rfl
  have htw : s.data.takeWhile Char.isUpper = [] := by
    cases hsd : s.data with
    | nil => rfl
    | cons c cs =>
      have hc : c ∈ s.data := by rw [hsd]; exact List.mem_cons_self c cs
      rw [List.takeWhile_cons_of_neg]
      simp [isDigit_not_isUpper (hd' c hc)]
  unfold inferPattern
  dsimp only
  rw [htw]
  rw [if_neg (by simp), if_pos (by simp [hie, hd])]
  rfl

/-- A concrete metadata record whose abstract-derived homepage carries a
`www.`-prefixed domain label (used to instantiate the assembler
theorems). -/
def pmUniprot : PubmedMetadata :=
  { title := "", doi := "", abstract := "", first_author := "", pmid := "2",
    year := none, homepage := "https://www.uniprot.org/entry", keywords := [] }

/-! ## Claim theorems -/

/-- C1, confirmed: for a request whose pmid passes validation and whose
metadata call returns a result dictionary, the endpoint dispatches as
the claim states: an error field gives a 500 with that message and no
data; metadata without a URL in the abstract gives a 400 with the
explanatory message and the partial record assembled without
DatabaseInfo; a raising scraper gives a 500 whose message carries the
exception text, with the partial record; otherwise a 200 success with
the fully assembled record. -/
theorem C1_endpoint_dispatch (pmidOpt : Option String) (c : Option ContributorInfo)
    (svc : ServiceBehavior) (scr : ScrapeOutcome) (outcome : MetaOutcome)
    (hvalid : validPmid (pyStrip (pmidOpt.getD "")) = true)
    (hmeta : extract_pubmed_metadata (pyStrip (pmidOpt.getD "")) svc = .ok outcome) :
    (∀ msg, outcome = .err msg →
        extract pmidOpt c svc scr =
          { statusCode := 500, status := "error", message := some msg, data := none }) ∧
    (∀ pm, outcome = .meta pm → findUrls pm.abstract = [] →
        extract pmidOpt c svc scr =
          { statusCode := 400, status := "error", message := some noUrlMsg,
            data := some (format_bioregistry_json (some pm) none c) }) ∧
    (∀ pm u rest msg, outcome = .meta pm → findUrls pm.abstract = u :: rest →
        scr = .raises msg →
        extract pmidOpt c svc scr =
          { statusCode := 500, status := "error",
            message := some ("Database scraping failed: " ++ msg),
            data := some (format_bioregistry_json (some pm) none c) }) ∧
    (∀ pm u rest reply, outcome = .meta pm → findUrls pm.abstract = u :: rest →
        scr = .agentReply reply →
        extract pmidOpt c svc scr =
          { statusCode := 200, status := "success", message := none,
            data := some (format_bioregistry_json (some pm)
              (some (extract_database_info u reply)) c) }) := by
  refine ⟨?_, ?_, ?_, ?_⟩
  · intro msg hout
    subst hout
    unfold extract
    dsimp only
    rw [hvalid, if_neg (by simp), hmeta]
  · intro pm hout hu
    subst hout
    unfold extract
    dsimp only
    rw [hvalid, if_neg (by simp), hmeta]
    dsimp only
    rw [hu]
  · intro pm u rest msg hout hu hscr
    subst hout
    subst hscr
    unfold extract
    dsimp only
    rw [hvalid, if_neg (by simp), hmeta]
    dsimp only
    rw [hu]
  · intro pm u rest reply hout hu hscr
    subst hout
    subst hscr
    unfold extract
    dsimp only
    rw [hvalid, if_neg (by simp), hmeta]
    dsimp only
    rw [hu]

/-- Witness for C1: a validated pmid whose metadata fetch fails yields
the claimed 500 with the fetch error message and no data. -/
theorem C1_endpoint_dispatch_witness :
    validPmid (pyStrip ((some "12345678").getD "")) = true ∧
    extract_pubmed_metadata (pyStrip ((some "12345678").getD "")) (.fetchError "boom") =
      .ok (.err "PubMed fetch error: boom") ∧
    extract (some "12345678") none (.fetchError "boom") (.agentReply "") =
      { statusCode := 500, status := "error",
        message := some "PubMed fetch error: boom", data := none } :=
  ⟨by decide, rfl,
    (C1_endpoint_dispatch (some "12345678") none (.fetchError "boom") (.agentReply "")
      (.err "PubMed fetch error: boom") (by decide) rfl).1 _ rfl⟩

/-- C2, counterexample: the claim says every pmid value containing a
non-digit character is answered with the fixed 400; but the endpoint
strips surrounding whitespace first, so `" 123 "` — which contains
non-digit characters — passes validation and the request proceeds (here
to a 500 from the failing metadata fetch, not the fixed 400). -/
theorem C2_counterexample :
    (" 123 " ≠ "" ∧ (" 123 ".data.all Char.isDigit) = false) ∧
    extract (some " 123 ") none (.fetchError "boom") (.agentReply "") =
      { statusCode := 500, status := "error",
        message := some "PubMed fetch error: boom", data := none } := by
  decide

/-- C2, amended: the `/extract` endpoint answers with the fixed 400
validation response exactly when the pmid value, after stripping
surrounding whitespace, is not a non-empty digit string; a pmid that
strips to one or more digits is accepted, whatever the rest of the
pipeline then does. -/
theorem C2_validation_after_strip (pmidOpt : Option String) (c : Option ContributorInfo)
    (svc : ServiceBehavior) (scr : ScrapeOutcome) :
    validPmid (pyStrip (pmidOpt.getD "")) = false ↔
      extract pmidOpt c svc scr =
        { statusCode := 400, status := "error",
          message := some invalidPmidMsg, data := none } := by
  constructor
  · intro h
    unfold extract
    dsimp only
    rw [h]
    rfl
  · intro h
    cases hv : validPmid (pyStrip (pmidOpt.getD "")) with
    | false => rfl
    | true =>
      exfalso
      unfold extract at h
      dsimp only at h
      rw [hv] at h
      rw [if_neg (by simp)] at h
      cases hm : extract_pubmed_metadata (pyStrip (pmidOpt.getD "")) svc with
      | error e => rw [hm] at h; simp at h
      | ok mo =>
        cases mo with
        | err msg => rw [hm] at h; simp at h
        | meta pm =>
          rw [hm] at h
          dsimp only at h
          cases hu : findUrls pm.abstract with
          | nil => rw [hu] at h; simp at h
          | cons u rest =>
            rw [hu] at h
            dsimp only at h
            cases scr with
            | raises msg => simp at h
            | agentReply fa => simp at h

/-- C3, counterexample: the claim says no exception ever escapes
`extract_pubmed_metadata` whatever shape the service returns; but when
the returned mapping holds `None` under the requested identifier (and
no other truthy value), the selected item is `None` and the very first
field access raises an `AttributeError` that propagates to the caller. -/
theorem C3_counterexample :
    extract_pubmed_metadata "123" (.returns (.pdict [("123", .pnone)])) =
      .error "AttributeError: NoneType object has no attribute get" := rfl

/-- C3, amended: exceptions of the external call itself are converted
into an `error` field — a failing INDRA import, a raising PubMed fetch,
and an empty (falsy) result each produce an error dictionary rather
than an exception; but a truthy result of unexpected shape can still
make the function raise. -/
theorem C3_service_errors_converted (pmid e : String) (raw : PyVal)
    (hraw : pyTruthy raw = false) :
    extract_pubmed_metadata pmid (.importError e) =
      .ok (.err ("INDRA import error: " ++ e)) ∧
    extract_pubmed_metadata pmid (.fetchError e) =
      .ok (.err ("PubMed fetch error: " ++ e)) ∧
    extract_pubmed_metadata pmid (.returns raw) =
      .ok (.err "No metadata returned from PubMed") := by
  refine ⟨rfl, rfl, ?_⟩
  unfold extract_pubmed_metadata
  dsimp only
  rw [hraw]
  rfl

/-- Witness for C3 at concrete inputs. -/
theorem C3_service_errors_converted_witness :
    pyTruthy .pnone = false ∧
    (extract_pubmed_metadata "7" (.importError "down") =
        .ok (.err "INDRA import error: down") ∧
      extract_pubmed_metadata "7" (.fetchError "down") =
        .ok (.err "PubMed fetch error: down") ∧
      extract_pubmed_metadata "7" (.returns .pnone) =
        .ok (.err "No metadata returned from PubMed")) :=
  ⟨rfl, C3_service_errors_converted "7" "down" .pnone rfl⟩

/-- C4, counterexample: in `"(http://a.co)"` the maximal run of
non-whitespace, non-`)`, non-`]` characters is `"(http://a.co"`, which
does not begin with a scheme, so the claimed rule returns nothing — but
the source's regex matches from the scheme occurrence inside the run
and returns the URL. -/
theorem C4_counterexample :
    urlScanClaim "(http://a.co)" = [] ∧
    findUrls "(http://a.co)" = ["http://a.co"] := by decide

/-- C4, amended: the scan returns, left to right, one match per
occurrence of `http://` or `https://` (extended maximally over allowed
characters, trailing `.,;:` stripped) — each returned string carries
its scheme and no trailing punctuation, the spec's example computes as
claimed, and a scheme inside a larger run is still matched. -/
theorem C4_url_scan_matches (t : String) :
    (∀ u ∈ findUrls t,
        ((∃ b : String, u = "http://" ++ b) ∨ (∃ b : String, u = "https://" ++ b)) ∧
        String.mk (stripTrailPunct u.data) = u) ∧
    findUrls "see http://a.co/x, and https://b.org/y)." =
      ["http://a.co/x", "https://b.org/y"] ∧
    findUrls "(http://a.co)" = ["http://a.co"] := by
  refine ⟨?_, by decide, by decide⟩
  intro u hu
  obtain ⟨raw, hraw, hu'⟩ := List.mem_map.mp hu
  subst hu'
  constructor
  · rcases scanUrlsFuel_mem _ _ _ hraw with ⟨body, hb⟩ | ⟨body, hb⟩
    · subst hb
      obtain ⟨b, hsb⟩ := stripTrailPunct_append_keep "https://".data body '/' "/:sptth".data
        (by decide) rfl
      refine .inr ⟨String.mk b, ?_⟩
      apply String.ext
      rw [String.data_append]
      exact hsb
    · subst hb
      obtain ⟨b, hsb⟩ := stripTrailPunct_append_keep "http://".data body '/' "/:ptth".data
        (by decide) rfl
      refine .inl ⟨String.mk b, ?_⟩
      apply String.ext
      rw [String.data_append]
      exact hsb
  · show String.mk (stripTrailPunct (String.mk (stripTrailPunct raw)).data) = _
    rw [show (String.mk (stripTrailPunct raw)).data = stripTrailPunct raw from rfl,
      stripTrailPunct_idem]

/-- Witness for C4 at the spec's example text. -/
theorem C4_url_scan_matches_witness :
    "http://a.co/x" ∈ findUrls "see http://a.co/x, and https://b.org/y)." ∧
    (((∃ b : String, "http://a.co/x" = "http://" ++ b) ∨
        (∃ b : String, "http://a.co/x" = "https://" ++ b)) ∧
      String.mk (stripTrailPunct "http://a.co/x".data) = "http://a.co/x") :=
  ⟨by decide, (C4_url_scan_matches "see http://a.co/x, and https://b.org/y).").1
    "http://a.co/x" (by decide)⟩

/-- C5, counterexample: `"abc123"` is letters followed by digits, yet
the extractor leaves the pattern empty — the source's
`re.match(r'^[A-Z]+\d+$', ...)` accepts only uppercase letters, so the
claimed rule fails on lowercase examples. -/
theorem C5_counterexample :
    ("abc123" = "abc" ++ "123" ∧ "abc".data.all Char.isAlpha = true ∧ "abc" ≠ "" ∧
      "123".data.all Char.isDigit = true ∧ "123" ≠ "") ∧
    (postProcess "http://h" { example_ := "abc123" }).pattern = "" ∧
    "" ≠ "^abc\\d\x7b3\x7d$" := by
  decide

/-- C5, amended: when the parsed pattern is empty and the example is
non-empty, an example of UPPERCASE letters followed by digits yields a
pattern anchoring the letter prefix and digit count, an all-digit
example yields a pattern anchoring its length, and the spec's two
examples compute as stated. -/
theorem C5_pattern_inference (e : Extracted) (url L D : String) (hp : e.pattern = "") :
    (e.example_ = L ++ D → L ≠ "" → L.data.all Char.isUpper = true → D ≠ "" →
        D.data.all Char.isDigit = true →
        (postProcess url e).pattern =
          "^" ++ L ++ "\\d\x7b" ++ toString D.length ++ "\x7d$") ∧
    (e.example_ ≠ "" → e.example_.data.all Char.isDigit = true →
        (postProcess url e).pattern = "^\\d\x7b" ++ toString e.example_.length ++ "\x7d$") ∧
    (postProcess url { example_ := "ABC123" }).pattern = "^ABC\\d\x7b3\x7d$" ∧
    (postProcess url { example_ := "12345" }).pattern = "^\\d\x7b5\x7d$" := by
  refine ⟨?_, ?_, ?_, ?_⟩
  · intro hex hL hLu hD hDd
    have hne : e.example_ ≠ "" := by
      rw [hex]
      intro hemp
      have h0 : L.data ++ D.data = [] := by
        have hc := congrArg String.data hemp
        rwa [String.data_append] at hc
      exact hL (String.ext (List.append_eq_nil.mp h0).1)
    rw [postProcess_pattern url e hp hne, hex,
      inferPattern_upper_digits L D hL hLu hD hDd]
  · intro hne hdd
    rw [postProcess_pattern url e hp hne, inferPattern_all_digits _ hne hdd]
  · exact (postProcess_pattern url _ rfl (by decide)).trans (by decide)
  · exact (postProcess_pattern url _ rfl (by decide)).trans (by decide)

/-- Witness for C5 at the spec's example. -/
theorem C5_pattern_inference_witness :
    ({ example_ := "ABC123" } : Extracted).pattern = "" ∧
    (postProcess "http://h" { example_ := "ABC123" }).pattern = "^ABC\\d\x7b3\x7d$" :=
  ⟨rfl, ((C5_pattern_inference { example_ := "ABC123" } "http://h" "ABC" "123" rfl).1
    (by decide) (by decide) (by decide) (by decide) (by decide)).trans (by decide)⟩

/-- C6, confirmed: whenever the parsed prefix is empty and the name is
non-empty, the extractor derives the prefix as the lowercased
concatenation of the first character of each whitespace-separated word
of the name, and the spec's example computes to `keogag`. -/
theorem C6_prefix_from_name (e : Extracted) (url : String)
    (h1 : e.pfx = "") (h2 : e.name ≠ "") :
    (postProcess url e).pfx =
      pyLower (String.join (((splitRuns isPySpace e.name.data).filter (!·.isEmpty)).map
        (fun w => String.mk (w.take 1)))) ∧
    derivePrefixFromName "Kyoto Encyclopedia of Genes and Genomes" = "keogag" :=
  ⟨postProcess_pfx url e h1 h2, by decide⟩

/-- Witness for C6 at the spec's example. -/
theorem C6_prefix_from_name_witness :
    ({ name := "Kyoto Encyclopedia of Genes and Genomes" } : Extracted).pfx = "" ∧
    (postProcess "http://h"
      { name := "Kyoto Encyclopedia of Genes and Genomes" }).pfx = "keogag" :=
  ⟨rfl, ((C6_prefix_from_name { name := "Kyoto Encyclopedia of Genes and Genomes" }
    "http://h" rfl (by decide)).1).trans (by decide)⟩

/-- C7, counterexample: with an available homepage `"www.example.org"`
and no name from DatabaseInfo, the claimed rule (text between an
optional `www.` and the next dot or slash) derives `example`, but the
source's regex requires an `http://` or `https://` scheme before the
label and falls back to `"database"`. -/
theorem C7_counterexample :
    nameRuleClaim "www.example.org" = "example" ∧
    (format_bioregistry_json
        (some { title := "", doi := "", abstract := "", first_author := "", pmid := "1",
                year := none, homepage := "", keywords := [] })
        (some { name := "", pfx := "", description := "", homepage := "www.example.org",
                example_ := "", pattern := "", uri_format := "", keywords := [],
                contact := { email := "", name := "", orcid := "" } })
        none).entry.name = "database" ∧
    "database" ≠ "example" := by decide

/-- C7, amended: when DatabaseInfo supplies no (non-whitespace) name,
the record's name is the domain label found after the first `http://`
or `https://` (and optional `www.`) of the homepage — DatabaseInfo's
homepage preferred, else the abstract-derived one — defaulting to
`database` when the scan finds no scheme-prefixed label (in particular
when there is no homepage at all); when additionally no prefix is
supplied, the single output key is obtained from that resolved name by
stripping a trailing version suffix, keeping only alphanumerics
lowercased, and defaulting to `database_key` when nothing remains. -/
theorem C7_assembler_derivations (pm : PubmedMetadata) (db : Option DatabaseInfo)
    (c : Option ContributorInfo) (hname : pyStrip (dbName db) = "") :
    ((format_bioregistry_json (some pm) db c).entry.name =
        domainNameRule (pyOrStr (dbHomepage db) pm.homepage)) ∧
    (pyStrip (dbPfx db) = "" →
        (format_bioregistry_json (some pm) db c).key =
          prefixRule (domainNameRule (pyOrStr (dbHomepage db) pm.homepage))) ∧
    domainNameRule "" = "database" ∧
    prefixRule "---" = "database_key" := by
  refine ⟨?_, fun hpfx => ?_, by decide, by decide⟩
  · cases db with
    | none =>
      unfold format_bioregistry_json
      dsimp only [dbName, dbHomepage]
      rfl
    | some d =>
      dsimp only [dbName] at hname
      unfold format_bioregistry_json
      dsimp only [dbHomepage]
      rw [hname]
      rfl
  · cases db with
    | none =>
      unfold format_bioregistry_json
      dsimp only [dbName, dbHomepage, dbPfx, prefixRule]
      rw [alnumLower_pyStrip]
      rfl
    | some d =>
      dsimp only [dbName] at hname
      dsimp only [dbPfx] at hpfx
      unfold format_bioregistry_json
      dsimp only [dbHomepage, prefixRule]
      rw [hname, hpfx, alnumLower_pyStrip]
      rfl

/-- Witness for C7: a record with no DatabaseInfo and an abstract-derived
homepage gets its name and key from the domain label. -/
theorem C7_assembler_derivations_witness :
    pyStrip (dbName none) = "" ∧
    (format_bioregistry_json (some pmUniprot) none none).entry.name = "uniprot" ∧
    (format_bioregistry_json (some pmUniprot) none none).key = "uniprot" :=
  ⟨by decide,
    ((C7_assembler_derivations pmUniprot none none (by decide)).1).trans (by decide),
    ((C7_assembler_derivations pmUniprot none none (by decide)).2.1 (by decide)).trans
      (by decide)⟩

/-- C8, confirmed: with a PublicationMetadata record present, the
assembled record's publications list is exactly one entry built from
that record's doi, pubmed id, title and year (a zero or absent year
becomes `null`), for every DatabaseInfo and contributor argument — in
particular also when every sub-field is empty. -/
theorem C8_publications_single_entry (pm : PubmedMetadata) (db : Option DatabaseInfo)
    (c : Option ContributorInfo) :
    (format_bioregistry_json (some pm) db c).entry.publications =
      [{ doi := pm.doi, pubmed := pm.pmid, title := pm.title,
         year := match pm.year with
                 | some y => if y = 0 then none else some y
                 | none => none }] ∧
    (format_bioregistry_json
        (some { title := "", doi := "", abstract := "", first_author := "", pmid := "",
                year := none, homepage := "", keywords := [] }) none none).entry.publications =
      [{ doi := "", pubmed := "", title := "", year := none }] :=
  ⟨rfl, by decide⟩

/-- C9, confirmed: every DatabaseInfo record the extractor produces has
at most 3 keywords, whatever the agent replied; and the spec's example
keyword line parses to the first three entries. -/
theorem C9_keywords_capped (url reply : String) :
    (extract_database_info url reply).keywords.length ≤ 3 ∧
    (extract_database_info "http://h" "Keywords: a, b, c, d").keywords =
      ["a", "b", "c"] := by
  constructor
  · unfold extract_database_info
    dsimp only
    rw [postProcess_keywords]
    exact foldl_applyLine_keywords_le _ {} (by decide)
  · decide

/-- C10, confirmed: when the PublicationMetadata record carries a
non-empty keywords list, the assembled record's keywords are that list,
verbatim and untruncated, regardless of the DatabaseInfo keywords. -/
theorem C10_pubmed_keywords_verbatim (pm : PubmedMetadata) (db : Option DatabaseInfo)
    (c : Option ContributorInfo) (h : pm.keywords ≠ []) :
    (format_bioregistry_json (some pm) db c).entry.keywords = pm.keywords := by
  unfold format_bioregistry_json
  dsimp only
  have hie : pm.keywords.isEmpty = false := by
    cases hk : pm.keywords with
    | nil => exact absurd hk h
    | cons a as => rfl
  rw [hie]
  rfl

/-- Witness for C10: four pubmed keywords survive uncapped even though
the extractor offered its own keyword list. -/
theorem C10_pubmed_keywords_verbatim_witness :
    (format_bioregistry_json
        (some { title := "", doi := "", abstract := "", first_author := "", pmid := "9",
                year := none, homepage := "", keywords := ["a", "b", "c", "d"] })
        (some { name := "", pfx := "", description := "", homepage := "",
                example_ := "", pattern := "", uri_format := "", keywords := ["x"],
                contact := { email := "", name := "", orcid := "" } })
        none).entry.keywords = ["a", "b", "c", "d"] :=
  C10_pubmed_keywords_verbatim _ _ _ (by decide)

end Bioreg

